import Mathlib

/-!
Shallow embedding of the StorageBuffer table engine
(src/src/Storages/StorageBuffer.cpp) and proofs about it.

Modelling conventions:
* A Block is modelled by its multiset-relevant content: a flag `cols`
  standing for the C++ `operator bool` (whether the block has columns,
  i.e. a schema) and the list `rows` of its rows.  Row values are drawn
  from an abstract type; `bytes()` is the sum of a per-row size
  function `bsize`, matching the additive way the source combines byte
  counts (`buffer.data.bytes() + additional_bytes`).
* `sortColumns` reorders columns, never rows, so on this model it is
  the identity on the row list.
* Mutexes and the `locked` parameter only matter under concurrency;
  the embedding is the sequential semantics, where every try-lock in
  the shard-selection walk succeeds.
* The destination table is abstracted by a `DestBehavior` describing
  which of the source code paths `writeBlockToDestination` takes, and
  the engine state tracks the list of rows delivered to it.
* C++ exceptions become an explicit `raised` flag carried next to the
  state that the partially executed code left behind.
-/

namespace StorageBufferModel

/-- Thresholds as in StorageBuffer::Thresholds: time is Int64, rows and bytes UInt64. -/
structure Thresholds where
  time : Int
  rows : Nat
  bytes : Nat
  deriving Repr, DecidableEq

/-- The pair of min and max thresholds fixed at construction. -/
structure Config where
  min : Thresholds
  max : Thresholds
  deriving Repr, DecidableEq

/-- A columnar block: `cols` is the C++ `operator bool` (block has columns),
`rows` the sequence of rows it holds. -/
structure Block (α : Type) where
  cols : Bool
  rows : List α
  deriving Repr, DecidableEq

/-- Buffer.data together with Buffer.first_write_time (0 means never written). -/
structure Buffer (α : Type) where
  data : Block α
  first_write_time : Nat
  deriving Repr, DecidableEq

instance {α : Type} : Inhabited (Buffer α) := ⟨⟨⟨false, []⟩, 0⟩⟩

/-- CurrentMetrics gauges StorageBufferRows and StorageBufferBytes (Int64 atomics). -/
structure Metrics where
  bufferRows : Int
  bufferBytes : Int
  deriving Repr, DecidableEq

/-- ProfileEvents counters used by the engine. -/
structure Counters where
  flush : Nat
  errorOnFlush : Nat
  passedAllMin : Nat
  passedTimeMax : Nat
  passedRowsMax : Nat
  passedBytesMax : Nat
  deriving Repr, DecidableEq

/-- Which branch of checkThresholdsImpl fired (each has its own counter). -/
inductive ThresholdBranch where
  | allMin
  | timeMax
  | rowsMax
  | bytesMax
  deriving Repr, DecidableEq

/-- Increment the ProfileEvents counter belonging to a threshold branch
(none when the predicate did not fire). -/
def bumpBranch (c : Counters) : Option ThresholdBranch → Counters
  | none => c
  | some .allMin => { c with passedAllMin := c.passedAllMin + 1 }
  | some .timeMax => { c with passedTimeMax := c.passedTimeMax + 1 }
  | some .rowsMax => { c with passedRowsMax := c.passedRowsMax + 1 }
  | some .bytesMax => { c with passedBytesMax := c.passedBytesMax + 1 }

section WithRows

variable {α : Type}

/-- Block::bytes(): sum of the per-row byte sizes. -/
def blockBytes (bsize : α → Nat) (b : Block α) : Nat :=
  (b.rows.map bsize).sum

/-- Block::cloneEmpty(): same columns (schema flag), zero rows. -/
def cloneEmpty (b : Block α) : Block α :=
  ⟨b.cols, []⟩

/-- Block::sortColumns(): reorders columns only, so the row list is unchanged. -/
def sortColumns (b : Block α) : Block α := b

/-- StorageBuffer::checkThresholdsImpl, refined to report which branch fired,
in source order: all-min, time-max, rows-max, bytes-max. -/
def checkThresholdsBranch (cfg : Config) (rows bytes : Nat) (time_passed : Int) :
    Option ThresholdBranch :=
  if time_passed > cfg.min.time ∧ rows > cfg.min.rows ∧ bytes > cfg.min.bytes then
    some .allMin
  else if time_passed > cfg.max.time then
    some .timeMax
  else if rows > cfg.max.rows then
    some .rowsMax
  else if bytes > cfg.max.bytes then
    some .bytesMax
  else
    none

/-- Boolean result of StorageBuffer::checkThresholdsImpl. -/
def checkThresholdsImpl (cfg : Config) (rows bytes : Nat) (time_passed : Int) : Bool :=
  (checkThresholdsBranch cfg rows bytes time_passed).isSome

/-- StorageBuffer::checkThresholds: adds the incoming rows and bytes to the
buffered ones and takes the age since first_write_time (0 when never written). -/
def checkThresholdsBuf (cfg : Config) (bsize : α → Nat) (buffer : Buffer α)
    (current_time : Nat) (additional_rows additional_bytes : Nat) : Bool :=
  let time_passed : Int :=
    if buffer.first_write_time = 0 then 0
    else (current_time : Int) - (buffer.first_write_time : Int)
  checkThresholdsImpl cfg (buffer.data.rows.length + additional_rows)
    (blockBytes bsize buffer.data + additional_bytes) time_passed

/-- Result of the static appendBlock: did it throw, the target block as left
in memory, and the gauges as left by the operation. -/
structure AppendOut (α : Type) where
  raised : Bool
  dst : Block α
  metrics : Metrics
  deriving Repr, DecidableEq

/-- Static appendBlock(from, to).  Throws LOGICAL_ERROR when `to` has no
columns.  Otherwise it first adds the incoming rows and bytes to the gauges,
then appends column by column; `fails` tells whether one of the column
appends throws, in which case the rollback truncates every column back to
the old row count (so the block is unchanged row-wise) and the exception
propagates.  Note the gauges are NOT corrected on that path, exactly as in
the source. -/
def appendBlock (bsize : α → Nat) (fails : Bool) (src dst : Block α)
    (m : Metrics) : AppendOut α :=
  if !dst.cols then
    ⟨true, dst, m⟩
  else
    let m' : Metrics :=
      { bufferRows := m.bufferRows + src.rows.length,
        bufferBytes := m.bufferBytes + blockBytes bsize src }
    if fails then
      ⟨true, dst, m'⟩
    else
      ⟨false, ⟨dst.cols, dst.rows ++ src.rows⟩, m'⟩

/-- Which path StorageBuffer::writeBlockToDestination takes for this engine. -/
inductive DestBehavior where
  | noDest        -- destination_id is not set
  | tableMissing  -- tryGetTable returned null: block discarded with a log line
  | noCommonCols  -- destination shares no columns with the block: discarded
  | ok            -- the insert succeeds and delivers every row
  | raises        -- the insert into the destination throws
  deriving Repr, DecidableEq

/-- StorageBuffer::writeBlockToDestination(block, table): returns the new
list of delivered rows, or an error when the destination insert throws.
A block without columns, a missing table and an empty column intersection
all return without writing and without throwing. -/
def writeBlockToDestination (beh : DestBehavior) (block : Block α)
    (delivered : List α) : Except Unit (List α) :=
  match beh with
  | .noDest => .ok delivered
  | .tableMissing => .ok delivered
  | _ =>
    if !block.cols then .ok delivered
    else
      match beh with
      | .noCommonCols => .ok delivered
      | .raises => .error ()
      | _ => .ok (delivered ++ block.rows)

/-- State left behind by StorageBuffer::flushBuffer, with the raised flag. -/
structure FlushOut (α : Type) where
  raised : Bool
  buffer : Buffer α
  metrics : Metrics
  counters : Counters
  dest : List α
  deriving Repr, DecidableEq

/-- StorageBuffer::flushBuffer(buffer, check_thresholds, locked).  The lock
is sequentially irrelevant.  Gate: with check_thresholds the threshold
predicate must hold (its branch counter is bumped), without it the buffer
must be non-empty.  Then the block is swapped out for an empty clone,
first_write_time reset, gauges decreased and the flush counter bumped; if a
destination is configured the block is written there, and on a throw the
error counter is bumped, the gauges restored, the block swapped back,
first_write_time restored (it is zero at that point) and the exception
propagates. -/
def flushBuffer (cfg : Config) (bsize : α → Nat) (beh : DestBehavior)
    (buffer : Buffer α) (m : Metrics) (c : Counters) (dest : List α)
    (check_thresholds : Bool) (current_time : Nat) : FlushOut α :=
  let block_to_write := cloneEmpty buffer.data
  let rows := buffer.data.rows.length
  let bytes := blockBytes bsize buffer.data
  let time_passed : Int :=
    if buffer.first_write_time = 0 then 0
    else (current_time : Int) - (buffer.first_write_time : Int)
  if check_thresholds then
    let br := checkThresholdsBranch cfg rows bytes time_passed
    let c := bumpBranch c br
    if br.isNone then
      ⟨false, buffer, m, c, dest⟩
    else
      flushProceed bsize beh buffer block_to_write m c dest current_time
  else
    if rows = 0 then
      ⟨false, buffer, m, c, dest⟩
    else
      flushProceed bsize beh buffer block_to_write m c dest current_time
where
  /-- The part of flushBuffer after the gate: swap out, account, write. -/
  flushProceed (bsize : α → Nat) (beh : DestBehavior)
      (buffer : Buffer α) (block_to_write : Block α) (m : Metrics)
      (c : Counters) (dest : List α) (current_time : Nat) : FlushOut α :=
    -- buffer.data.swap(block_to_write); buffer.first_write_time = 0
    let btw := buffer.data
    let buffer : Buffer α := ⟨block_to_write, 0⟩
    let m : Metrics :=
      { bufferRows := m.bufferRows - btw.rows.length,
        bufferBytes := m.bufferBytes - blockBytes bsize btw }
    let c : Counters := { c with flush := c.flush + 1 }
    match beh with
    | .noDest => ⟨false, buffer, m, c, dest⟩
    | _ =>
      match writeBlockToDestination beh btw dest with
      | .ok dest' => ⟨false, buffer, m, c, dest'⟩
      | .error _ =>
        let c : Counters := { c with errorOnFlush := c.errorOnFlush + 1 }
        let m : Metrics :=
          { bufferRows := m.bufferRows + btw.rows.length,
            bufferBytes := m.bufferBytes + blockBytes bsize btw }
        let buffer : Buffer α := ⟨btw, if buffer.first_write_time = 0 then current_time else buffer.first_write_time⟩
        ⟨true, buffer, m, c, dest⟩

/-- Branch fired by StorageBuffer::checkThresholds on a buffer: combined
rows and bytes, age since first_write_time (0 when never written). -/
def checkThresholdsBufBranch (cfg : Config) (bsize : α → Nat) (buffer : Buffer α)
    (current_time : Nat) (additional_rows additional_bytes : Nat) :
    Option ThresholdBranch :=
  let time_passed : Int :=
    if buffer.first_write_time = 0 then 0
    else (current_time : Int) - (buffer.first_write_time : Int)
  checkThresholdsBranch cfg (buffer.data.rows.length + additional_rows)
    (blockBytes bsize buffer.data + additional_bytes) time_passed

/-- Tail of BufferBlockOutputStream::insertIntoBuffer after the possible
initialization or inline flush: set first_write_time when it is zero, then
append the sorted block into the buffer. -/
def insertTail (bsize : α → Nat) (appendFails : Bool) (sorted : Block α)
    (buffer : Buffer α) (m : Metrics) (c : Counters) (dest : List α)
    (current_time : Nat) : FlushOut α :=
  let buffer :=
    if buffer.first_write_time = 0 then
      { buffer with first_write_time := current_time }
    else buffer
  let ao := appendBlock bsize appendFails sorted buffer.data m
  ⟨ao.raised, { buffer with data := ao.dst }, ao.metrics, c, dest⟩

/-- BufferBlockOutputStream::insertIntoBuffer.  The block is sorted (rows
unchanged); an uninitialized buffer gets an empty clone of the sorted
block; otherwise, when the combined totals pass the thresholds, the buffer
is flushed inline with thresholds unchecked before the append.  A throw
from the inline flush propagates and skips the append. -/
def insertIntoBuffer (cfg : Config) (bsize : α → Nat) (beh : DestBehavior)
    (appendFails : Bool) (block : Block α) (buffer : Buffer α) (m : Metrics)
    (c : Counters) (dest : List α) (current_time : Nat) : FlushOut α :=
  let sorted := sortColumns block
  if !buffer.data.cols then
    insertTail bsize appendFails sorted { buffer with data := cloneEmpty sorted }
      m c dest current_time
  else
    let br := checkThresholdsBufBranch cfg bsize buffer current_time
      sorted.rows.length (blockBytes bsize sorted)
    let c := bumpBranch c br
    if br.isSome then
      let fo := flushBuffer cfg bsize beh buffer m c dest false current_time
      if fo.raised then fo
      else insertTail bsize appendFails sorted fo.buffer fo.metrics fo.counters
        fo.dest current_time
    else
      insertTail bsize appendFails sorted buffer m c dest current_time

/-- Row count of shard i (used by the shard-selection walk). -/
def rowsAt (shards : List (Buffer α)) (i : Nat) : Nat :=
  ((shards.getD i default).data.rows).length

/-- Sequential semantics of the shard-selection walk of
BufferBlockOutputStream::write: starting at thread_id mod N, walk one lap
and keep the locked shard with the fewest rows; a strictly smaller count
displaces the current winner, so ties go to the earliest candidate.  With
no contention every try-lock succeeds, hence the blocking fallback on the
start shard is unreachable for a non-empty shard list. -/
def selectShard (shards : List (Buffer α)) (start : Nat) : Nat :=
  match (List.range shards.length).map (fun k => (start + k) % shards.length) with
  | [] => start
  | i :: rest =>
    rest.foldl (fun best j => if rowsAt shards j < rowsAt shards best then j else best) i

/-- Whole-engine state: the shard array, both gauges, the counters, and
the list of rows delivered to the destination so far. -/
structure EngineState (α : Type) where
  shards : List (Buffer α)
  metrics : Metrics
  counters : Counters
  dest : List α
  deriving Repr, DecidableEq

/-- Engine state together with the raised flag of the last operation. -/
structure StepOut (α : Type) where
  raised : Bool
  state : EngineState α
  deriving Repr, DecidableEq

/-- BufferBlockOutputStream::write.  Empty blocks return at once; an
oversize block (rows or bytes above the max thresholds, strictly) bypasses
the shards and goes straight to the destination when one is configured;
otherwise the selected shard receives the block via insertIntoBuffer.
`startShard` stands for getThreadId() mod num_shards. -/
def bufferWrite (cfg : Config) (bsize : α → Nat) (beh : DestBehavior)
    (appendFails : Bool) (block : Block α) (startShard : Nat)
    (s : EngineState α) (current_time : Nat) : StepOut α :=
  if !block.cols then ⟨false, s⟩
  else if block.rows.length = 0 then ⟨false, s⟩
  else if block.rows.length > cfg.max.rows ∨ blockBytes bsize block > cfg.max.bytes then
    match beh with
    | .noDest => ⟨false, s⟩
    | _ =>
      match writeBlockToDestination beh block s.dest with
      | .ok d => ⟨false, { s with dest := d }⟩
      | .error _ => ⟨true, s⟩
  else
    let i := selectShard s.shards startShard
    let fo := insertIntoBuffer cfg bsize beh appendFails block
      (s.shards.getD i default) s.metrics s.counters s.dest current_time
    ⟨fo.raised, ⟨s.shards.set i fo.buffer, fo.metrics, fo.counters, fo.dest⟩⟩

/-- Result of flushing a list of shards in order. -/
structure FlushAllOut (α : Type) where
  raised : Bool
  shards : List (Buffer α)
  metrics : Metrics
  counters : Counters
  dest : List α
  deriving Repr, DecidableEq

/-- StorageBuffer::flushAllBuffers over an explicit shard list: flush each
shard in order; an exception aborts the loop and propagates (the remaining
shards are left untouched). -/
def flushList (cfg : Config) (bsize : α → Nat) (beh : DestBehavior)
    (bufs : List (Buffer α)) (m : Metrics) (c : Counters) (dest : List α)
    (check : Bool) (t : Nat) : FlushAllOut α :=
  match bufs with
  | [] => ⟨false, [], m, c, dest⟩
  | b :: rest =>
    let fo := flushBuffer cfg bsize beh b m c dest check t
    if fo.raised then ⟨true, fo.buffer :: rest, fo.metrics, fo.counters, fo.dest⟩
    else
      let r := flushList cfg bsize beh rest fo.metrics fo.counters fo.dest check t
      ⟨r.raised, fo.buffer :: r.shards, r.metrics, r.counters, r.dest⟩

/-- StorageBuffer::flushAllBuffers on the engine state. -/
def flushAllBuffers (cfg : Config) (bsize : α → Nat) (beh : DestBehavior)
    (s : EngineState α) (check : Bool) (t : Nat) : StepOut α :=
  let r := flushList cfg bsize beh s.shards s.metrics s.counters s.dest check t
  ⟨r.raised, ⟨r.shards, r.metrics, r.counters, r.dest⟩⟩

/-- StorageBuffer::optimize without partition, final or deduplicate:
drain every shard with thresholds unchecked. -/
def optimize (cfg : Config) (bsize : α → Nat) (beh : DestBehavior)
    (s : EngineState α) (t : Nat) : StepOut α :=
  flushAllBuffers cfg bsize beh s false t

/-- Run a sequence of writes; each entry carries the block, the value of
getThreadId() mod num_shards for that insert, and the wall-clock second.
An exception stops the sequence, as it would propagate to the client. -/
def runWrites (cfg : Config) (bsize : α → Nat) (beh : DestBehavior)
    (appendFails : Bool) (ws : List (Block α × Nat × Nat))
    (s : EngineState α) : StepOut α :=
  match ws with
  | [] => ⟨false, s⟩
  | (b, st, t) :: rest =>
    let o := bufferWrite cfg bsize beh appendFails b st s t
    if o.raised then o
    else runWrites cfg bsize beh appendFails rest o.state

/-- Freshly constructed engine: n default-constructed shards, zero gauges
and counters, nothing delivered. -/
def initState (n : Nat) : EngineState α :=
  ⟨List.replicate n default, ⟨0, 0⟩, ⟨0, 0, 0, 0, 0, 0⟩, []⟩

/-- StorageBuffer::reschedule, faithfully: the loop body OVERWRITES
min_first_write_time with each first_write_time in turn (initialized
to the largest time_t), so the value used is the last shard entry, and it
sums the row counts.  With zero rows it does not reschedule; otherwise the
delay in milliseconds is min(max(min.time - age, 1), max(max.time - age, 1))
seconds. -/
def rescheduleDelay (cfg : Config) (shards : List (Buffer α))
    (current_time : Nat) : Option Nat :=
  let acc := shards.foldl
    (fun (p : Int × Nat) b => ((b.first_write_time : Int), p.2 + b.data.rows.length))
    ((2 ^ 63 - 1 : Int), 0)
  if acc.2 = 0 then none
  else
    let time_passed : Int := (current_time : Int) - acc.1
    let mn : Int := max (cfg.min.time - time_passed) 1
    let mx : Int := max (cfg.max.time - time_passed) 1
    some ((min mn mx).toNat * 1000)

/-- Modelled from the spec: the reschedule deadline as the specification
words it, taking the OLDEST (minimum) first_write_time across shards that
have one, with age = now - oldest and a delay of
max(1, min(min.time - age, max.time - age)) seconds.  Used only to compare
with the faithful rescheduleDelay above. -/
def rescheduleDelaySpec (cfg : Config) (shards : List (Buffer α))
    (current_time : Nat) : Option Nat :=
  let rows := (shards.map (fun b => b.data.rows.length)).sum
  if rows = 0 then none
  else
    let oldest : Int := shards.foldl
      (fun a b => if b.first_write_time ≠ 0 then min a (b.first_write_time : Int) else a)
      (2 ^ 63 - 1 : Int)
    let age : Int := (current_time : Int) - oldest
    some ((max 1 (min (cfg.min.time - age) (cfg.max.time - age))).toNat * 1000)

/-- StorageBuffer::totalRows.  `underlying` is none when tryGetTable finds
no table (unset or unresolvable destination), some r when the destination
table reports r (itself an Option).  The source keeps underlying_rows empty
in the first case and returns it unchanged whenever it is empty. -/
def totalRows (underlying : Option (Option Nat)) (shards : List (Buffer α)) :
    Option Nat :=
  let underlying_rows : Option Nat :=
    match underlying with
    | none => none
    | some r => r
  match underlying_rows with
  | none => none
  | some d => some ((shards.map fun b => b.data.rows.length).sum + d)

/-- StorageBuffer::totalBytes: sum of the shard byte counts only. -/
def totalBytes (bsize : α → Nat) (shards : List (Buffer α)) : Nat :=
  (shards.map fun b => blockBytes bsize b.data).sum

/-- Multiset of rows held across a list of shards. -/
def buffersMultiset (bufs : List (Buffer α)) : Multiset α :=
  (bufs.map fun b => (b.data.rows : Multiset α)).sum

/-- Every shard with rows has columns (schema); holds for all reachable
engine states and is what lets a later flush actually deliver the rows. -/
def ShardsWF (bufs : List (Buffer α)) : Prop :=
  ∀ b ∈ bufs, b.data.rows ≠ [] → b.data.cols = true

end WithRows

lemma bumpBranch_errorOnFlush (c : Counters) (br : Option ThresholdBranch) :
    (bumpBranch c br).errorOnFlush = c.errorOnFlush := by
  rcases br with _ | b
  · rfl
  · cases b <;> rfl

lemma bumpBranch_flush (c : Counters) (br : Option ThresholdBranch) :
    (bumpBranch c br).flush = c.flush := by
  rcases br with _ | b
  · rfl
  · cases b <;> rfl

set_option maxRecDepth 8000

lemma buffersMultiset_nil {α : Type} : buffersMultiset ([] : List (Buffer α)) = 0 := rfl

lemma buffersMultiset_cons {α : Type} (b : Buffer α) (bufs : List (Buffer α)) :
    buffersMultiset (b :: bufs) = (b.data.rows : Multiset α) + buffersMultiset bufs := by
  simp [buffersMultiset]

lemma getD_mem_of_lt {β : Type} (l : List β) (i : Nat) (d : β) (h : i < l.length) :
    l.getD i d ∈ l := by
  have he : l.getD i d = l.get ⟨i, h⟩ := by
    simp [List.getD_eq_getElem?_getD, List.getElem?_eq_getElem h]
  rw [he]
  exact List.get_mem l i h

lemma buffersMultiset_set {α : Type} (bufs : List (Buffer α)) (i : Nat)
    (nb : Buffer α) (hi : i < bufs.length) :
    buffersMultiset (bufs.set i nb) + ((bufs.getD i default).data.rows : Multiset α)
      = buffersMultiset bufs + (nb.data.rows : Multiset α) := by
  induction bufs generalizing i with
  | nil => simp at hi
  | cons b rest ih =>
    cases i with
    | zero =>
      simp only [List.set_cons_zero, List.getD_cons_zero, buffersMultiset_cons]
      abel
    | succ j =>
      have hj : j < rest.length := by simpa using hi
      have hrec := ih j hj
      simp only [List.set_cons_succ, List.getD_cons_succ, buffersMultiset_cons]
      rw [add_assoc, hrec, add_assoc]

lemma shardsWF_set {α : Type} (bufs : List (Buffer α)) (i : Nat) (nb : Buffer α)
    (hwf : ShardsWF bufs) (hnb : nb.data.rows ≠ [] → nb.data.cols = true) :
    ShardsWF (bufs.set i nb) := by
  intro x hx
  rcases List.mem_or_eq_of_mem_set hx with h | rfl
  · exact hwf x h
  · exact hnb

lemma selectFold_mem {α : Type} (shards : List (Buffer α)) (l : List Nat) (i : Nat) :
    l.foldl (fun best j => if rowsAt shards j < rowsAt shards best then j else best) i
      ∈ i :: l := by
  induction l generalizing i with
  | nil => simp
  | cons a l ih =>
    simp only [List.foldl_cons]
    by_cases h : rowsAt shards a < rowsAt shards i
    · simp only [if_pos h]
      rcases List.mem_cons.1 (ih a) with h' | h' <;> simp [h']
    · simp only [if_neg h]
      rcases List.mem_cons.1 (ih i) with h' | h' <;> simp [h']

lemma selectShard_lt {α : Type} (shards : List (Buffer α)) (st : Nat)
    (h : shards ≠ []) : selectShard shards st < shards.length := by
  have hn : 0 < shards.length := List.length_pos.2 h
  have hbound : ∀ x ∈ (List.range shards.length).map
      (fun k => (st + k) % shards.length), x < shards.length := by
    intro x hx
    obtain ⟨k, _, rfl⟩ := List.mem_map.1 hx
    exact Nat.mod_lt _ hn
  unfold selectShard
  cases hw : (List.range shards.length).map (fun k => (st + k) % shards.length) with
  | nil =>
    exfalso
    have : shards.length = 0 := by
      have := congrArg List.length hw
      simpa using this
    omega
  | cons i rest =>
    rw [hw] at hbound
    exact hbound _ (selectFold_mem shards rest i)

lemma flushBuffer_ok_drain {α : Type} (cfg : Config) (bsize : α → Nat)
    (b : Buffer α) (m : Metrics) (c : Counters) (dest : List α) (t : Nat)
    (hwf : b.data.rows ≠ [] → b.data.cols = true) :
    (flushBuffer cfg bsize .ok b m c dest false t).raised = false ∧
    (flushBuffer cfg bsize .ok b m c dest false t).buffer.data.rows = [] ∧
    (flushBuffer cfg bsize .ok b m c dest false t).buffer.data.cols = b.data.cols ∧
    ((flushBuffer cfg bsize .ok b m c dest false t).dest : Multiset α)
      = (dest : Multiset α) + (b.data.rows : Multiset α) := by
  by_cases h : b.data.rows = []
  · simp [flushBuffer, h]
  · have hcols := hwf h
    have hlen : b.data.rows.length ≠ 0 := by simpa [List.length_eq_zero] using h
    simp [flushBuffer, hlen, flushBuffer.flushProceed, writeBlockToDestination,
      hcols, cloneEmpty, Multiset.coe_add]

lemma flushList_ok_drain {α : Type} (cfg : Config) (bsize : α → Nat)
    (bufs : List (Buffer α)) (m : Metrics) (c : Counters) (dest : List α)
    (t : Nat) (hwf : ShardsWF bufs) :
    (flushList cfg bsize .ok bufs m c dest false t).raised = false ∧
    buffersMultiset (flushList cfg bsize .ok bufs m c dest false t).shards = 0 ∧
    ((flushList cfg bsize .ok bufs m c dest false t).dest : Multiset α)
      = (dest : Multiset α) + buffersMultiset bufs := by
  induction bufs generalizing m c dest with
  | nil => simp [flushList, buffersMultiset_nil]
  | cons b rest ih =>
    obtain ⟨h1, h2, h3, h4⟩ :=
      flushBuffer_ok_drain cfg bsize b m c dest t (hwf b (by simp))
    have hwf' : ShardsWF rest := fun x hx => hwf x (List.mem_cons_of_mem _ hx)
    obtain ⟨g1, g2, g3⟩ := ih (flushBuffer cfg bsize .ok b m c dest false t).metrics
      (flushBuffer cfg bsize .ok b m c dest false t).counters
      (flushBuffer cfg bsize .ok b m c dest false t).dest hwf'
    simp only [flushList, h1, Bool.false_eq_true, if_false]
    refine ⟨g1, ?_, ?_⟩
    · simp [buffersMultiset_cons, h2, g2]
    · rw [g3, h4, buffersMultiset_cons, add_assoc]

lemma insertTail_ok {α : Type} (bsize : α → Nat) (block : Block α)
    (b : Buffer α) (m : Metrics) (c : Counters) (dest : List α) (t : Nat)
    (hc : b.data.cols = true) :
    insertTail bsize false block b m c dest t =
      ⟨false, ⟨⟨true, b.data.rows ++ block.rows⟩,
        if b.first_write_time = 0 then t else b.first_write_time⟩,
        ⟨m.bufferRows + block.rows.length, m.bufferBytes + blockBytes bsize block⟩,
        c, dest⟩ := by
  by_cases h : b.first_write_time = 0 <;>
    simp [insertTail, appendBlock, hc, h]

lemma insertIntoBuffer_ok_conserves {α : Type} (cfg : Config) (bsize : α → Nat)
    (block : Block α) (b : Buffer α) (m : Metrics) (c : Counters)
    (dest : List α) (t : Nat)
    (hbc : block.cols = true)
    (hwf : b.data.rows ≠ [] → b.data.cols = true) :
    (insertIntoBuffer cfg bsize .ok false block b m c dest t).raised = false ∧
    (insertIntoBuffer cfg bsize .ok false block b m c dest t).buffer.data.cols = true ∧
    ((insertIntoBuffer cfg bsize .ok false block b m c dest t).dest : Multiset α)
      + ((insertIntoBuffer cfg bsize .ok false block b m c dest t).buffer.data.rows : Multiset α)
      = (dest : Multiset α) + (b.data.rows : Multiset α) + (block.rows : Multiset α) := by
  by_cases hcols : b.data.cols = true
  · -- initialized buffer: maybe inline flush, then append
    rcases hbrE : checkThresholdsBufBranch cfg bsize b t block.rows.length
        (blockBytes bsize block) with _ | br
    · -- thresholds not passed: plain append
      simp only [insertIntoBuffer, sortColumns, hcols, Bool.not_true, Bool.false_eq_true,
        if_false, hbrE, Option.isSome_none, insertTail_ok _ _ _ _ _ _ _ hcols]
      refine ⟨by simp, by simp, ?_⟩
      simp [Multiset.coe_add, add_assoc]
    · -- thresholds passed: inline flush with thresholds unchecked, then append
      obtain ⟨f1, f2, f3, f4⟩ := flushBuffer_ok_drain cfg bsize b m
        (bumpBranch c (some br)) dest t hwf
      have hfc : (flushBuffer cfg bsize .ok b m (bumpBranch c (some br))
          dest false t).buffer.data.cols = true := by rw [f3]; exact hcols
      simp only [insertIntoBuffer, sortColumns, hcols, Bool.not_true, Bool.false_eq_true,
        if_false, hbrE, Option.isSome_some, if_true, f1,
        insertTail_ok _ _ _ _ _ _ _ hfc]
      refine ⟨by simp, by simp, ?_⟩
      rw [f2]
      simp only [List.nil_append]
      rw [f4]
  · -- uninitialized buffer: fresh empty clone of the sorted block
    have hrows : b.data.rows = [] := by
      by_contra hne
      exact hcols (hwf hne)
    have hcb : (cloneEmpty (sortColumns block)).cols = true := by
      simpa [cloneEmpty, sortColumns] using hbc
    have hcolsF : b.data.cols = false := by
      cases hcv : b.data.cols
      · rfl
      · exact absurd hcv hcols
    simp only [insertIntoBuffer, hcolsF, Bool.not_false, if_true]
    rw [insertTail_ok bsize (sortColumns block)
      { b with data := cloneEmpty (sortColumns block) } m c dest t hcb]
    refine ⟨by simp, by simp, ?_⟩
    simp [cloneEmpty, sortColumns, hrows]

lemma bufferWrite_not_oversize_eq {α : Type} (cfg : Config) (bsize : α → Nat)
    (beh : DestBehavior) (af : Bool) (block : Block α) (st : Nat)
    (s : EngineState α) (t : Nat)
    (hbc : block.cols = true)
    (hlen0 : block.rows.length ≠ 0)
    (hnover : ¬(block.rows.length > cfg.max.rows ∨ blockBytes bsize block > cfg.max.bytes)) :
    bufferWrite cfg bsize beh af block st s t =
      ⟨(insertIntoBuffer cfg bsize beh af block
          (s.shards.getD (selectShard s.shards st) default)
          s.metrics s.counters s.dest t).raised,
        ⟨s.shards.set (selectShard s.shards st)
            (insertIntoBuffer cfg bsize beh af block
              (s.shards.getD (selectShard s.shards st) default)
              s.metrics s.counters s.dest t).buffer,
          (insertIntoBuffer cfg bsize beh af block
            (s.shards.getD (selectShard s.shards st) default)
            s.metrics s.counters s.dest t).metrics,
          (insertIntoBuffer cfg bsize beh af block
            (s.shards.getD (selectShard s.shards st) default)
            s.metrics s.counters s.dest t).counters,
          (insertIntoBuffer cfg bsize beh af block
            (s.shards.getD (selectShard s.shards st) default)
            s.metrics s.counters s.dest t).dest⟩⟩ := by
  simp [bufferWrite, hbc, hlen0, hnover]

lemma bufferWrite_ok_step {α : Type} (cfg : Config) (bsize : α → Nat)
    (block : Block α) (st : Nat) (s : EngineState α) (t : Nat)
    (hbc : block.cols = true) (hnz : block.rows ≠ [])
    (hmr : block.rows.length ≤ cfg.max.rows)
    (hmb : blockBytes bsize block ≤ cfg.max.bytes)
    (hs : s.shards ≠ []) (hwf : ShardsWF s.shards) :
    (bufferWrite cfg bsize .ok false block st s t).raised = false ∧
    (bufferWrite cfg bsize .ok false block st s t).state.shards.length
      = s.shards.length ∧
    ShardsWF (bufferWrite cfg bsize .ok false block st s t).state.shards ∧
    ((bufferWrite cfg bsize .ok false block st s t).state.dest : Multiset α)
      + buffersMultiset (bufferWrite cfg bsize .ok false block st s t).state.shards
      = (s.dest : Multiset α) + buffersMultiset s.shards + (block.rows : Multiset α) := by
  have hlen0 : block.rows.length ≠ 0 := by simpa [List.length_eq_zero] using hnz
  have hnover : ¬(block.rows.length > cfg.max.rows ∨ blockBytes bsize block > cfg.max.bytes) := by
    push_neg
    exact ⟨Nat.not_lt.2 hmr |> Nat.le_of_not_lt, hmb⟩
  have hi : selectShard s.shards st < s.shards.length := selectShard_lt _ _ hs
  obtain ⟨i1, i2, i3⟩ := insertIntoBuffer_ok_conserves cfg bsize block
    (s.shards.getD (selectShard s.shards st) default) s.metrics s.counters s.dest t
    hbc (hwf _ (getD_mem_of_lt _ _ _ hi))
  rw [bufferWrite_not_oversize_eq cfg bsize .ok false block st s t hbc hlen0 hnover]
  refine ⟨i1, by simp, ?_, ?_⟩
  · exact shardsWF_set _ _ _ hwf (fun _ => i2)
  · have hset := buffersMultiset_set s.shards (selectShard s.shards st)
      (insertIntoBuffer cfg bsize .ok false block
        (s.shards.getD (selectShard s.shards st) default)
        s.metrics s.counters s.dest t).buffer hi
    have := add_right_cancel
      (a := ((insertIntoBuffer cfg bsize .ok false block
          (s.shards.getD (selectShard s.shards st) default)
          s.metrics s.counters s.dest t).dest : Multiset α)
        + buffersMultiset (s.shards.set (selectShard s.shards st)
            (insertIntoBuffer cfg bsize .ok false block
              (s.shards.getD (selectShard s.shards st) default)
              s.metrics s.counters s.dest t).buffer))
      (b := ((s.shards.getD (selectShard s.shards st) default).data.rows : Multiset α))
      (c := (s.dest : Multiset α) + buffersMultiset s.shards + (block.rows : Multiset α))
    apply this
    calc ((insertIntoBuffer cfg bsize .ok false block
            (s.shards.getD (selectShard s.shards st) default)
            s.metrics s.counters s.dest t).dest : Multiset α)
          + buffersMultiset (s.shards.set (selectShard s.shards st)
              (insertIntoBuffer cfg bsize .ok false block
                (s.shards.getD (selectShard s.shards st) default)
                s.metrics s.counters s.dest t).buffer)
          + ((s.shards.getD (selectShard s.shards st) default).data.rows : Multiset α)
        = ((insertIntoBuffer cfg bsize .ok false block
            (s.shards.getD (selectShard s.shards st) default)
            s.metrics s.counters s.dest t).dest : Multiset α)
          + (buffersMultiset s.shards
            + ((insertIntoBuffer cfg bsize .ok false block
                (s.shards.getD (selectShard s.shards st) default)
                s.metrics s.counters s.dest t).buffer.data.rows : Multiset α)) := by
          rw [add_assoc, hset]
      _ = ((insertIntoBuffer cfg bsize .ok false block
            (s.shards.getD (selectShard s.shards st) default)
            s.metrics s.counters s.dest t).dest : Multiset α)
          + ((insertIntoBuffer cfg bsize .ok false block
              (s.shards.getD (selectShard s.shards st) default)
              s.metrics s.counters s.dest t).buffer.data.rows : Multiset α)
          + buffersMultiset s.shards := by
          rw [add_assoc, add_comm (buffersMultiset s.shards), ← add_assoc]
      _ = (s.dest : Multiset α)
          + ((s.shards.getD (selectShard s.shards st) default).data.rows : Multiset α)
          + (block.rows : Multiset α) + buffersMultiset s.shards := by rw [i3]
      _ = (s.dest : Multiset α) + buffersMultiset s.shards + (block.rows : Multiset α)
          + ((s.shards.getD (selectShard s.shards st) default).data.rows : Multiset α) := by
          abel

lemma runWrites_ok {α : Type} (cfg : Config) (bsize : α → Nat)
    (ws : List (Block α × Nat × Nat)) (s : EngineState α)
    (hws : ∀ w ∈ ws, w.1.cols = true ∧ w.1.rows ≠ [] ∧
      w.1.rows.length ≤ cfg.max.rows ∧ blockBytes bsize w.1 ≤ cfg.max.bytes)
    (hs : s.shards ≠ []) (hwf : ShardsWF s.shards) :
    (runWrites cfg bsize .ok false ws s).raised = false ∧
    (runWrites cfg bsize .ok false ws s).state.shards ≠ [] ∧
    ShardsWF (runWrites cfg bsize .ok false ws s).state.shards ∧
    ((runWrites cfg bsize .ok false ws s).state.dest : Multiset α)
      + buffersMultiset (runWrites cfg bsize .ok false ws s).state.shards
      = (s.dest : Multiset α) + buffersMultiset s.shards
        + (ws.map fun w => (w.1.rows : Multiset α)).sum := by
  induction ws generalizing s with
  | nil =>
    exact ⟨rfl, hs, hwf, by simp [runWrites]⟩
  | cons w rest ih =>
    obtain ⟨blk, wst, wt⟩ := w
    obtain ⟨hc1, hc2, hc3, hc4⟩ := hws (blk, wst, wt) (by simp)
    obtain ⟨r1, r2, r3, r4⟩ := bufferWrite_ok_step cfg bsize blk wst s wt
      hc1 hc2 hc3 hc4 hs hwf
    have hs' : (bufferWrite cfg bsize .ok false blk wst s wt).state.shards ≠ [] := by
      intro hempty
      rw [hempty] at r2
      exact hs (List.eq_nil_of_length_eq_zero r2.symm)
    obtain ⟨g1, g2, g3, g4⟩ := ih (bufferWrite cfg bsize .ok false blk wst s wt).state
      (fun x hx => hws x (List.mem_cons_of_mem _ hx)) hs' r3
    simp only [runWrites, r1, Bool.false_eq_true, if_false]
    refine ⟨g1, g2, g3, ?_⟩
    rw [g4, r4]
    simp [add_assoc]

/-- C7: the threshold evaluator fires iff all three min thresholds are
strictly passed, or any single max threshold is strictly passed; the four
branches are tested in that order and each bumps its own distinct counter. -/
theorem claim_c7_threshold_predicate (cfg : Config) (rows bytes : Nat) (t : Int) :
    (checkThresholdsImpl cfg rows bytes t = true ↔
      ((t > cfg.min.time ∧ rows > cfg.min.rows ∧ bytes > cfg.min.bytes) ∨
        t > cfg.max.time ∨ rows > cfg.max.rows ∨ bytes > cfg.max.bytes)) ∧
    (checkThresholdsBranch cfg rows bytes t = some .allMin ↔
      (t > cfg.min.time ∧ rows > cfg.min.rows ∧ bytes > cfg.min.bytes)) ∧
    (checkThresholdsBranch cfg rows bytes t = some .timeMax ↔
      (¬(t > cfg.min.time ∧ rows > cfg.min.rows ∧ bytes > cfg.min.bytes) ∧
        t > cfg.max.time)) ∧
    (checkThresholdsBranch cfg rows bytes t = some .rowsMax ↔
      (¬(t > cfg.min.time ∧ rows > cfg.min.rows ∧ bytes > cfg.min.bytes) ∧
        ¬(t > cfg.max.time) ∧ rows > cfg.max.rows)) ∧
    (checkThresholdsBranch cfg rows bytes t = some .bytesMax ↔
      (¬(t > cfg.min.time ∧ rows > cfg.min.rows ∧ bytes > cfg.min.bytes) ∧
        ¬(t > cfg.max.time) ∧ ¬(rows > cfg.max.rows) ∧ bytes > cfg.max.bytes)) ∧
    (∀ c : Counters,
      bumpBranch c (some .allMin) = { c with passedAllMin := c.passedAllMin + 1 } ∧
      bumpBranch c (some .timeMax) = { c with passedTimeMax := c.passedTimeMax + 1 } ∧
      bumpBranch c (some .rowsMax) = { c with passedRowsMax := c.passedRowsMax + 1 } ∧
      bumpBranch c (some .bytesMax) = { c with passedBytesMax := c.passedBytesMax + 1 }) := by
  refine ⟨?_, ?_, ?_, ?_, ?_, fun c => ⟨rfl, rfl, rfl, rfl⟩⟩ <;>
    · simp only [checkThresholdsImpl, checkThresholdsBranch]
      split_ifs <;> simp_all

/-- C3: the reschedule routine does NOT use the oldest first_write_time:
the loop overwrites its accumulator, so the deadline comes from the LAST
shard.  With shards whose first_write_time are 5 then 10, now = 10,
min.time = 100 and max.time = 200, the code schedules after 100 s while the
claimed oldest-based deadline is 95 s. -/
theorem claim_c3_reschedule_uses_last_not_min :
    rescheduleDelay (α := Nat) ⟨⟨100, 1000, 10000⟩, ⟨200, 10000, 100000⟩⟩
        [⟨⟨true, [1]⟩, 5⟩, ⟨⟨true, [2]⟩, 10⟩] 10 = some 100000 ∧
    rescheduleDelaySpec (α := Nat) ⟨⟨100, 1000, 10000⟩, ⟨200, 10000, 100000⟩⟩
        [⟨⟨true, [1]⟩, 5⟩, ⟨⟨true, [2]⟩, 10⟩] 10 = some 95000 := by
  constructor <;> rfl

/-- C4: a failed append leaves the gauges out of sync: appendBlock adds the
incoming rows and bytes to BufferRows and BufferBytes before the column
loop and never subtracts them on the rollback path, so after a failed
append of one row of three bytes into an empty shard the gauges read
(1, 3) while the shard still holds zero rows. -/
theorem claim_c4_gauge_leak_on_failed_append :
    appendBlock (fun _ : Nat => 3) true ⟨true, [7]⟩ ⟨true, []⟩ ⟨0, 0⟩ =
      ⟨true, ⟨true, []⟩, ⟨1, 3⟩⟩ := by
  decide

/-- C8 counterexample: with max.time = -1 the threshold predicate holds on
an empty shard (age 0 > -1), and flushBuffer with check_thresholds = true
does NOT return early on zero rows: it proceeds and increments the
BufferFlush counter, contrary to the claim that the counter is unchanged
whenever the shard holds zero rows. -/
theorem claim_c8_counterexample :
    (flushBuffer ⟨⟨0, 10, 100⟩, ⟨-1, 100, 10000⟩⟩ (fun _ : Nat => 1) .ok
        ⟨⟨true, []⟩, 0⟩ ⟨0, 0⟩ ⟨0, 0, 0, 0, 0, 0⟩ [] true 0).counters.flush = 1 := by
  decide

/-- C8 amended: flushBuffer returns early, leaving shard, counters and
gauges untouched, when check_thresholds is true and the predicate does not
hold, or when check_thresholds is false and the shard holds zero rows; the
zero-rows check is only on the check_thresholds = false branch. -/
theorem claim_c8_flush_gate {α : Type} (cfg : Config) (bsize : α → Nat)
    (beh : DestBehavior) (buffer : Buffer α) (m : Metrics) (c : Counters)
    (dest : List α) (check : Bool) (t : Nat)
    (h : (check = true ∧ checkThresholdsBufBranch cfg bsize buffer t 0 0 = none) ∨
         (check = false ∧ buffer.data.rows.length = 0)) :
    flushBuffer cfg bsize beh buffer m c dest check t = ⟨false, buffer, m, c, dest⟩ := by
  rcases h with ⟨hc, hb⟩ | ⟨hc, hb⟩ <;> subst hc
  · have hb' : checkThresholdsBranch cfg buffer.data.rows.length
        (blockBytes bsize buffer.data)
        (if buffer.first_write_time = 0 then 0
          else (t : Int) - (buffer.first_write_time : Int)) = none := by
      simpa [checkThresholdsBufBranch] using hb
    simp [flushBuffer, hb', bumpBranch]
  · simp [flushBuffer, hb]

/-- C8 witness: a shard of one row aged 0 s against min = (1 s, 10, 100)
passes no threshold, so the background flush leaves everything unchanged. -/
theorem claim_c8_flush_gate_witness :
    flushBuffer ⟨⟨1, 10, 100⟩, ⟨60, 100, 10000⟩⟩ (fun _ : Nat => 1) .ok
        ⟨⟨true, [5]⟩, 5⟩ ⟨1, 1⟩ ⟨0, 0, 0, 0, 0, 0⟩ [] true 5 =
      ⟨false, ⟨⟨true, [5]⟩, 5⟩, ⟨1, 1⟩, ⟨0, 0, 0, 0, 0, 0⟩, []⟩ :=
  claim_c8_flush_gate _ _ _ _ _ _ _ _ _ (Or.inl ⟨rfl, by decide⟩)

/-- C9 counterexample: with no destination table, totalRows returns
unknown, not the sum of the shard row counts (the shard holds 5 rows). -/
theorem claim_c9_counterexample :
    totalRows (α := Nat) none [⟨⟨true, [1, 2, 3, 4, 5]⟩, 7⟩] ≠ some 5 := by
  decide

/-- C9 amended: totalRows is the shard row sum plus the destination count
when the destination reports one; it is unknown when the destination
reports unknown AND when no destination table is there at all; totalBytes
is the shard byte sum alone. -/
theorem claim_c9_totals {α : Type} (bsize : α → Nat) (shards : List (Buffer α)) (d : Nat) :
    totalRows (some (some d)) shards =
      some ((shards.map fun b => b.data.rows.length).sum + d) ∧
    totalRows (α := α) none shards = none ∧
    totalRows (α := α) (some none) shards = none ∧
    totalBytes bsize shards = (shards.map fun b => blockBytes bsize b.data).sum :=
  ⟨rfl, rfl, rfl, rfl⟩

/-- C2: when the destination write throws, flushBuffer restores the shard
exactly (same block, row for row), re-adds the gauges, sets a fresh
non-zero first_write_time, bumps BufferErrorOnFlush and propagates the
exception; nothing reaches the destination. -/
theorem claim_c2_rollback_on_destination_failure {α : Type} (cfg : Config)
    (bsize : α → Nat) (buffer : Buffer α) (m : Metrics) (c : Counters)
    (dest : List α) (check : Bool) (t : Nat)
    (hrows : buffer.data.rows ≠ [])
    (hcols : buffer.data.cols = true)
    (ht : 0 < t)
    (hgate : check = true → checkThresholdsBufBranch cfg bsize buffer t 0 0 ≠ none) :
    (flushBuffer cfg bsize .raises buffer m c dest check t).raised = true ∧
    (flushBuffer cfg bsize .raises buffer m c dest check t).buffer.data = buffer.data ∧
    (flushBuffer cfg bsize .raises buffer m c dest check t).buffer.first_write_time = t ∧
    (flushBuffer cfg bsize .raises buffer m c dest check t).buffer.first_write_time ≠ 0 ∧
    (flushBuffer cfg bsize .raises buffer m c dest check t).metrics = m ∧
    (flushBuffer cfg bsize .raises buffer m c dest check t).counters.errorOnFlush
      = c.errorOnFlush + 1 ∧
    (flushBuffer cfg bsize .raises buffer m c dest check t).dest = dest := by
  have hlen : buffer.data.rows.length ≠ 0 := by
    simpa [List.length_eq_zero] using hrows
  have hproceed : ∀ c' : Counters,
      flushBuffer.flushProceed bsize .raises buffer (cloneEmpty buffer.data) m c' dest t =
        ⟨true, ⟨buffer.data, t⟩, m,
          { c' with flush := c'.flush + 1, errorOnFlush := c'.errorOnFlush + 1 }, dest⟩ := by
    intro c'
    simp [flushBuffer.flushProceed, writeBlockToDestination, hcols, cloneEmpty]
  cases check with
  | false =>
    simp [flushBuffer, hlen, hproceed]
    omega
  | true =>
    have hbr := hgate rfl
    simp only [checkThresholdsBufBranch, Nat.add_zero] at hbr
    simp [flushBuffer, hbr, hproceed, bumpBranch_errorOnFlush]
    omega

/-- C5: an insert into a non-empty shard whose combined totals pass the
thresholds first flushes the shard inline with thresholds unchecked, then
appends: the destination receives exactly the previously buffered rows and
the shard ends holding exactly the incoming rows, stamped at this insert. -/
theorem claim_c5_inline_flush_before_append {α : Type} (cfg : Config)
    (bsize : α → Nat) (block : Block α) (buffer : Buffer α) (m : Metrics)
    (c : Counters) (dest : List α) (t : Nat)
    (hcols : buffer.data.cols = true)
    (hrows : buffer.data.rows ≠ [])
    (hth : checkThresholdsBufBranch cfg bsize buffer t block.rows.length
      (blockBytes bsize block) ≠ none) :
    (insertIntoBuffer cfg bsize .ok false block buffer m c dest t).raised = false ∧
    (insertIntoBuffer cfg bsize .ok false block buffer m c dest t).dest
      = dest ++ buffer.data.rows ∧
    (insertIntoBuffer cfg bsize .ok false block buffer m c dest t).buffer.data.rows
      = block.rows ∧
    (insertIntoBuffer cfg bsize .ok false block buffer m c dest t).buffer.first_write_time
      = t := by
  have hlen : buffer.data.rows.length ≠ 0 := by
    simpa [List.length_eq_zero] using hrows
  have hsome : (checkThresholdsBufBranch cfg bsize buffer t block.rows.length
      (blockBytes bsize block)).isSome = true := by
    simpa [Option.isSome_iff_ne_none] using hth
  simp [insertIntoBuffer, sortColumns, hcols, hsome, flushBuffer, hlen,
    flushBuffer.flushProceed, writeBlockToDestination, cloneEmpty,
    insertTail, appendBlock]

/-- C6: an oversize block bypasses the shards: with a destination it is
written there directly and with none it is dropped; in every case the
shards, gauges and counters (BufferFlush among them) are untouched. -/
theorem claim_c6_oversize_bypass {α : Type} (cfg : Config) (bsize : α → Nat)
    (beh : DestBehavior) (block : Block α) (startShard : Nat)
    (s : EngineState α) (t : Nat)
    (hcols : block.cols = true)
    (hrows : block.rows ≠ [])
    (hover : block.rows.length > cfg.max.rows ∨ blockBytes bsize block > cfg.max.bytes) :
    (bufferWrite cfg bsize beh false block startShard s t).state.shards = s.shards ∧
    (bufferWrite cfg bsize beh false block startShard s t).state.metrics = s.metrics ∧
    (bufferWrite cfg bsize beh false block startShard s t).state.counters = s.counters ∧
    (beh = .ok →
      (bufferWrite cfg bsize beh false block startShard s t).raised = false ∧
      (bufferWrite cfg bsize beh false block startShard s t).state.dest
        = s.dest ++ block.rows) ∧
    (beh = .noDest →
      (bufferWrite cfg bsize beh false block startShard s t).raised = false ∧
      (bufferWrite cfg bsize beh false block startShard s t).state.dest = s.dest) := by
  have hlen : block.rows.length ≠ 0 := by
    simpa [List.length_eq_zero] using hrows
  cases beh <;>
    simp [bufferWrite, hcols, hlen, hover, writeBlockToDestination]

/-- C10: flushing to a configured destination whose table is gone, or that
shares no column with the block, succeeds silently: the shard is reset,
the data is dropped, no exception is raised and BufferErrorOnFlush stays
untouched. -/
theorem claim_c10_missing_or_mismatched_destination {α : Type} (cfg : Config)
    (bsize : α → Nat) (beh : DestBehavior) (buffer : Buffer α) (m : Metrics)
    (c : Counters) (dest : List α) (t : Nat)
    (hbeh : beh = .tableMissing ∨ beh = .noCommonCols)
    (hrows : buffer.data.rows ≠ []) :
    flushBuffer cfg bsize beh buffer m c dest false t =
      ⟨false, ⟨⟨buffer.data.cols, []⟩, 0⟩,
        ⟨m.bufferRows - buffer.data.rows.length,
          m.bufferBytes - blockBytes bsize buffer.data⟩,
        { c with flush := c.flush + 1 }, dest⟩ := by
  have hlen : buffer.data.rows.length ≠ 0 := by
    simpa [List.length_eq_zero] using hrows
  rcases hbeh with rfl | rfl
  · simp [flushBuffer, hlen, flushBuffer.flushProceed, writeBlockToDestination,
      cloneEmpty]
  · cases hc : buffer.data.cols <;>
      simp [flushBuffer, hlen, flushBuffer.flushProceed, writeBlockToDestination,
        cloneEmpty, hc]

/-- C1: starting from a fresh engine with at least one shard and an
always-succeeding destination, a sequence of non-empty schema-conforming
writes each under the max thresholds, followed by one optimize (drain with
thresholds unchecked), delivers to the destination exactly the multiset of
rows of all written blocks: nothing is lost, nothing is duplicated, and no
step raises. -/
theorem claim_c1_multiset_roundtrip {α : Type} (cfg : Config) (bsize : α → Nat)
    (n : Nat) (hn : 0 < n) (ws : List (Block α × Nat × Nat)) (tOpt : Nat)
    (hws : ∀ w ∈ ws, w.1.cols = true ∧ w.1.rows ≠ [] ∧
      w.1.rows.length ≤ cfg.max.rows ∧ blockBytes bsize w.1 ≤ cfg.max.bytes) :
    (runWrites cfg bsize .ok false ws (initState n)).raised = false ∧
    (optimize cfg bsize .ok (runWrites cfg bsize .ok false ws (initState n)).state
      tOpt).raised = false ∧
    ((optimize cfg bsize .ok (runWrites cfg bsize .ok false ws (initState n)).state
        tOpt).state.dest : Multiset α)
      = (ws.map fun w => (w.1.rows : Multiset α)).sum := by
  have hne : (initState (α := α) n).shards ≠ [] := by
    simp only [initState, ne_eq, List.replicate_eq_nil_iff]
    omega
  have hwf0 : ShardsWF (initState (α := α) n).shards := by
    intro b hb hr
    rw [List.eq_of_mem_replicate hb] at hr
    exact absurd rfl hr
  have hbm0 : buffersMultiset (initState (α := α) n).shards = 0 := by
    have hd : ((default : Buffer α).data.rows : Multiset α) = 0 := rfl
    simp [initState, buffersMultiset, List.map_replicate, List.sum_replicate, hd]
  have hdest0 : (((initState (α := α) n).dest : List α) : Multiset α) = 0 := by
    simp [initState]
  obtain ⟨r1, r2, r3, r4⟩ := runWrites_ok cfg bsize ws (initState n) hws hne hwf0
  rw [hbm0, hdest0] at r4
  simp only [zero_add] at r4
  obtain ⟨f1, f2, f3⟩ := flushList_ok_drain cfg bsize
    (runWrites cfg bsize .ok false ws (initState n)).state.shards
    (runWrites cfg bsize .ok false ws (initState n)).state.metrics
    (runWrites cfg bsize .ok false ws (initState n)).state.counters
    (runWrites cfg bsize .ok false ws (initState n)).state.dest tOpt r3
  have hopt : ((optimize cfg bsize .ok
      (runWrites cfg bsize .ok false ws (initState n)).state tOpt).state.dest : Multiset α)
      = ((runWrites cfg bsize .ok false ws (initState n)).state.dest : Multiset α)
        + buffersMultiset (runWrites cfg bsize .ok false ws (initState n)).state.shards := by
    simpa [optimize, flushAllBuffers] using f3
  refine ⟨r1, ?_, ?_⟩
  · simpa [optimize, flushAllBuffers] using f1
  · rw [hopt]
    exact r4

/-- C1 witness: two shards, blocks of rows (1,2) then (3) inserted at
seconds 10 and 11 and drained at second 12 deliver the multiset of the
three rows. -/
theorem claim_c1_multiset_roundtrip_witness :
    (0 < 2 ∧ ∀ w ∈ ([(⟨true, [1, 2]⟩, 0, 10), (⟨true, [3]⟩, 1, 11)] :
        List (Block Nat × Nat × Nat)),
      w.1.cols = true ∧ w.1.rows ≠ [] ∧ w.1.rows.length ≤ 100 ∧
        blockBytes (fun _ : Nat => 1) w.1 ≤ 10000) ∧
    ((optimize ⟨⟨1, 10, 100⟩, ⟨60, 100, 10000⟩⟩ (fun _ : Nat => 1) .ok
        (runWrites ⟨⟨1, 10, 100⟩, ⟨60, 100, 10000⟩⟩ (fun _ : Nat => 1) .ok false
          [(⟨true, [1, 2]⟩, 0, 10), (⟨true, [3]⟩, 1, 11)] (initState 2)).state
        12).state.dest : Multiset Nat)
      = (([(⟨true, [1, 2]⟩, 0, 10), (⟨true, [3]⟩, 1, 11)] :
          List (Block Nat × Nat × Nat)).map fun w => (w.1.rows : Multiset Nat)).sum :=
  ⟨⟨by decide, by decide⟩,
    (claim_c1_multiset_roundtrip _ _ 2 (by decide) _ 12 (by decide)).2.2⟩

/-- C2 witness: a two-row shard, a failing destination and a direct flush
at second 10: raised, rows conserved, timestamp restored, error counter
bumped, gauges restored, nothing delivered. -/
theorem claim_c2_rollback_on_destination_failure_witness :
    (([1, 2] : List Nat) ≠ [] ∧ 0 < 10) ∧
    ((flushBuffer ⟨⟨1, 10, 100⟩, ⟨60, 100, 10000⟩⟩ (fun _ : Nat => 1) .raises
        ⟨⟨true, [1, 2]⟩, 5⟩ ⟨2, 2⟩ ⟨0, 0, 0, 0, 0, 0⟩ [] false 10).raised = true ∧
      (flushBuffer ⟨⟨1, 10, 100⟩, ⟨60, 100, 10000⟩⟩ (fun _ : Nat => 1) .raises
        ⟨⟨true, [1, 2]⟩, 5⟩ ⟨2, 2⟩ ⟨0, 0, 0, 0, 0, 0⟩ [] false 10).buffer.data
        = ⟨true, [1, 2]⟩ ∧
      (flushBuffer ⟨⟨1, 10, 100⟩, ⟨60, 100, 10000⟩⟩ (fun _ : Nat => 1) .raises
        ⟨⟨true, [1, 2]⟩, 5⟩ ⟨2, 2⟩ ⟨0, 0, 0, 0, 0, 0⟩ [] false 10).buffer.first_write_time
        = 10 ∧
      (flushBuffer ⟨⟨1, 10, 100⟩, ⟨60, 100, 10000⟩⟩ (fun _ : Nat => 1) .raises
        ⟨⟨true, [1, 2]⟩, 5⟩ ⟨2, 2⟩ ⟨0, 0, 0, 0, 0, 0⟩ [] false 10).buffer.first_write_time
        ≠ 0 ∧
      (flushBuffer ⟨⟨1, 10, 100⟩, ⟨60, 100, 10000⟩⟩ (fun _ : Nat => 1) .raises
        ⟨⟨true, [1, 2]⟩, 5⟩ ⟨2, 2⟩ ⟨0, 0, 0, 0, 0, 0⟩ [] false 10).metrics = ⟨2, 2⟩ ∧
      (flushBuffer ⟨⟨1, 10, 100⟩, ⟨60, 100, 10000⟩⟩ (fun _ : Nat => 1) .raises
        ⟨⟨true, [1, 2]⟩, 5⟩ ⟨2, 2⟩ ⟨0, 0, 0, 0, 0, 0⟩ [] false 10).counters.errorOnFlush
        = 1 ∧
      (flushBuffer ⟨⟨1, 10, 100⟩, ⟨60, 100, 10000⟩⟩ (fun _ : Nat => 1) .raises
        ⟨⟨true, [1, 2]⟩, 5⟩ ⟨2, 2⟩ ⟨0, 0, 0, 0, 0, 0⟩ [] false 10).dest = []) :=
  ⟨⟨by decide, by decide⟩,
    claim_c2_rollback_on_destination_failure _ _ _ _ _ _ _ _ (by decide) (by decide)
      (by decide) (fun h => nomatch h)⟩

/-- C5 witness: a shard of rows (1,2) aged 5 s against min = (1 s, 2, 2)
receiving rows (3,4): combined totals pass the thresholds, the old rows go
to the destination and the shard ends with exactly the new rows. -/
theorem claim_c5_inline_flush_before_append_witness :
    ((true : Bool) = true ∧ ([1, 2] : List Nat) ≠ [] ∧
      checkThresholdsBufBranch ⟨⟨1, 2, 2⟩, ⟨60, 100, 10000⟩⟩ (fun _ : Nat => 1)
        ⟨⟨true, [1, 2]⟩, 5⟩ 10 2 2 ≠ none) ∧
    ((insertIntoBuffer ⟨⟨1, 2, 2⟩, ⟨60, 100, 10000⟩⟩ (fun _ : Nat => 1) .ok false
        ⟨true, [3, 4]⟩ ⟨⟨true, [1, 2]⟩, 5⟩ ⟨2, 2⟩ ⟨0, 0, 0, 0, 0, 0⟩ [] 10).raised
        = false ∧
      (insertIntoBuffer ⟨⟨1, 2, 2⟩, ⟨60, 100, 10000⟩⟩ (fun _ : Nat => 1) .ok false
        ⟨true, [3, 4]⟩ ⟨⟨true, [1, 2]⟩, 5⟩ ⟨2, 2⟩ ⟨0, 0, 0, 0, 0, 0⟩ [] 10).dest
        = [1, 2] ∧
      (insertIntoBuffer ⟨⟨1, 2, 2⟩, ⟨60, 100, 10000⟩⟩ (fun _ : Nat => 1) .ok false
        ⟨true, [3, 4]⟩ ⟨⟨true, [1, 2]⟩, 5⟩ ⟨2, 2⟩ ⟨0, 0, 0, 0, 0, 0⟩ [] 10).buffer.data.rows
        = [3, 4] ∧
      (insertIntoBuffer ⟨⟨1, 2, 2⟩, ⟨60, 100, 10000⟩⟩ (fun _ : Nat => 1) .ok false
        ⟨true, [3, 4]⟩ ⟨⟨true, [1, 2]⟩, 5⟩ ⟨2, 2⟩ ⟨0, 0, 0, 0, 0, 0⟩ [] 10).buffer.first_write_time
        = 10) :=
  ⟨⟨rfl, by decide, by decide⟩,
    claim_c5_inline_flush_before_append _ _ _ _ _ _ _ _ (by decide) (by decide)
      (by decide)⟩

/-- C6 witness: a three-row block against max.rows = 2 bypasses both
shards, which stay empty, and reaches the destination whole. -/
theorem claim_c6_oversize_bypass_witness :
    ((true : Bool) = true ∧ ([1, 2, 3] : List Nat) ≠ [] ∧
      (([1, 2, 3] : List Nat).length > 2 ∨
        blockBytes (fun _ : Nat => 1) ⟨true, [1, 2, 3]⟩ > 10000)) ∧
    (bufferWrite ⟨⟨1, 10, 100⟩, ⟨60, 2, 10000⟩⟩ (fun _ : Nat => 1) .ok false
        ⟨true, [1, 2, 3]⟩ 0 (initState 2) 0).state.shards
      = (initState (α := Nat) 2).shards ∧
    (bufferWrite ⟨⟨1, 10, 100⟩, ⟨60, 2, 10000⟩⟩ (fun _ : Nat => 1) .ok false
        ⟨true, [1, 2, 3]⟩ 0 (initState 2) 0).state.counters
      = (initState (α := Nat) 2).counters ∧
    (bufferWrite ⟨⟨1, 10, 100⟩, ⟨60, 2, 10000⟩⟩ (fun _ : Nat => 1) .ok false
        ⟨true, [1, 2, 3]⟩ 0 (initState 2) 0).raised = false ∧
    (bufferWrite ⟨⟨1, 10, 100⟩, ⟨60, 2, 10000⟩⟩ (fun _ : Nat => 1) .ok false
        ⟨true, [1, 2, 3]⟩ 0 (initState 2) 0).state.dest
      = (initState (α := Nat) 2).dest ++ [1, 2, 3] :=
  ⟨⟨rfl, by decide, by decide⟩,
    (claim_c6_oversize_bypass _ _ _ _ _ _ _ (by decide) (by decide) (by decide)).1,
    (claim_c6_oversize_bypass _ _ _ _ _ _ _ (by decide) (by decide) (by decide)).2.2.1,
    ((claim_c6_oversize_bypass _ _ _ _ _ _ _ (by decide) (by decide) (by decide)).2.2.2.1
      rfl).1,
    ((claim_c6_oversize_bypass _ _ _ _ _ _ _ (by decide) (by decide) (by decide)).2.2.2.1
      rfl).2⟩

/-- C10 witness: a two-row shard flushed to a configured destination whose
table is missing: flush succeeds, the shard is reset, the rows are
discarded and the error counter stays at zero. -/
theorem claim_c10_missing_or_mismatched_destination_witness :
    ((DestBehavior.tableMissing = DestBehavior.tableMissing ∨
        DestBehavior.tableMissing = DestBehavior.noCommonCols) ∧
      ([1, 2] : List Nat) ≠ []) ∧
    flushBuffer ⟨⟨1, 10, 100⟩, ⟨60, 100, 10000⟩⟩ (fun _ : Nat => 1) .tableMissing
        ⟨⟨true, [1, 2]⟩, 5⟩ ⟨2, 2⟩ ⟨0, 0, 0, 0, 0, 0⟩ [] false 10
      = ⟨false, ⟨⟨true, []⟩, 0⟩, ⟨0, 0⟩, ⟨1, 0, 0, 0, 0, 0⟩, []⟩ :=
  ⟨⟨Or.inl rfl, by decide⟩,
    claim_c10_missing_or_mismatched_destination _ _ _ _ _ _ _ _ (Or.inl rfl)
      (by decide)⟩

end StorageBufferModel
